import Mathlib

/-!
Verification of the Fetch Coordinator described in the repository
specification.  The repository under review ships the test suite of the
`useDataApi` hooks (`useSearchResultsApi`, `useAutocompleteApi`,
`useFetchDocumentsApi`, `useFieldsApi`) but not the hook implementation
itself, so the coordinator is modelled here from the specification text
and checked for consistency with the behaviours the test suite demands.
-/

namespace UseDataApi

/-- Parameter objects (the `searchParameters` / `autocompleteParameters`
objects of the hooks), modelled extensionally as association lists of
string keys to string values; `lookupParams` gives the object semantics
(first binding of a key wins). -/
abbrev Params := List (String × String)

/-- Field access on a parameter object. -/
def lookupParams : Params → String → Option String
  | [], _ => none
  | kv :: rest, k => if kv.1 = k then some kv.2 else lookupParams rest k

/-- Modelled from the spec: shallow merge of a parameter update over a
base parameter object, as in a JavaScript object spread — keys of the
update override keys of the base.  The update is placed first so that
`lookupParams` finds it first. -/
def mergeParams (base upd : Params) : Params := upd ++ base

/-- The response envelope produced by the external search client: the
payload sits under the `result` field (cf. `createDummyResponse` and the
`SlowClient` test double resolving `{ result: { matching_results: 1 } }`). -/
structure DummyResponse (α : Type) where
  result : α
deriving DecidableEq, Repr

/-- Settlement outcome of one external call: the promise either resolves
with a response envelope or rejects. -/
inductive Outcome (α : Type) where
  | success (resp : DummyResponse α)
  | failure
deriving DecidableEq, Repr

/-- The store exposed by a coordinator:
`{ data, isLoading, isError, parameters }`. -/
structure RequestStore (α : Type) where
  data : Option α
  isLoading : Bool
  isError : Bool
  parameters : Params
deriving DecidableEq, Repr

/-- Modelled from the spec: the state of one Fetch Coordinator — its
store, the most recently minted request token (`0` before any fetch),
and whether the owning context is still alive (not yet torn down). -/
structure Coordinator (α : Type) where
  store : RequestStore α
  latestToken : Nat
  alive : Bool
deriving DecidableEq, Repr

/-- Observable effects of one settlement: the argument with which the
`onSettled` callback was invoked (if it was), the number of diagnostics
or warnings emitted, and whether the rejection was re-thrown to the
caller. -/
structure SettleEffects (α : Type) where
  onSettledArg : Option α
  diagnostics : Nat
  rethrown : Bool
deriving DecidableEq, Repr

/-- The empty effect: no callback, no diagnostic, nothing re-thrown. -/
def SettleEffects.none (α : Type) : SettleEffects α :=
  ⟨Option.none, 0, false⟩

/-- Modelled from the spec: coordinator construction — the store starts
with the caller-supplied initial parameters and initial results (or the
default `none`), not loading and not in error; no token minted yet. -/
def mkCoordinator (ps : Params) (d0 : Option α) : Coordinator α :=
  ⟨⟨d0, false, false, ps⟩, 0, true⟩

/-- The data returned by issuing a fetch: the updated coordinator, the
freshly minted token, and the parameters handed to the external call. -/
structure Issued (α : Type) where
  coordinator : Coordinator α
  token : Nat
  callParams : Params
deriving DecidableEq, Repr

/-- Modelled from the spec: `triggerFetch` steps 1–2 — mint a new token,
set `isLoading = true` and `isError = false` synchronously, and invoke
the external call with the override merged over the stored parameters
(or the stored parameters themselves when there is no override). -/
def triggerFetch (c : Coordinator α) (override : Option Params) : Issued α :=
  let tok := c.latestToken + 1
  let callParams :=
    match override with
    | Option.none => c.store.parameters
    | some ov => mergeParams c.store.parameters ov
  ⟨⟨⟨c.store.data, true, false, c.store.parameters⟩, tok, c.alive⟩, tok, callParams⟩

/-- Modelled from the spec: the document-fetch action — the caller
supplies a filter string, which is merged as the `filter` field into the
existing parameter set before the external call is issued. -/
def fetchDocuments (c : Coordinator α) (filter : String) : Issued α :=
  triggerFetch c (some [("filter", filter)])

/-- Modelled from the spec: `setParameters` — shallow-merges the update
into the current parameters; pure synchronous state update with no other
effect (in particular no token is minted and no call is issued). -/
def setParameters (c : Coordinator α) (upd : Params) : Coordinator α :=
  { c with store := { c.store with parameters := mergeParams c.store.parameters upd } }

/-- Modelled from the spec: `setResponse` — synchronously sets
`data = response` and clears `isError`, bypassing the network call. -/
def setResponse (c : Coordinator α) (r : α) : Coordinator α :=
  { c with store := { c.store with data := some r, isError := false } }

/-- Modelled from the spec: teardown of the owning context. -/
def teardown (c : Coordinator α) : Coordinator α :=
  { c with alive := false }

/-- Modelled from the spec: settlement of the external call issued with
token `tok`.  The store is mutated only if the token is still the most
recently minted one and the context is alive; a successful settlement
stores the unwrapped `result` payload and fires `onSettled` with it, a
rejection is converted to `isError = true` (the data is kept); a stale
or post-teardown settlement is discarded silently — no mutation, no
callback, no diagnostic, and the rejection is never re-thrown. -/
def settle (c : Coordinator α) (tok : Nat) (out : Outcome α) :
    Coordinator α × SettleEffects α :=
  if c.alive = true ∧ tok = c.latestToken then
    match out with
    | Outcome.success resp =>
      ({ c with store :=
          { c.store with data := some resp.result, isLoading := false, isError := false } },
       ⟨some resp.result, 0, false⟩)
    | Outcome.failure =>
      ({ c with store := { c.store with isError := true, isLoading := false } },
       SettleEffects.none α)
  else (c, SettleEffects.none α)

/-- Issue a sequence of fetches back to back (each with its override). -/
def runTriggers (c : Coordinator α) : List (Option Params) → Coordinator α
  | [] => c
  | ov :: rest => runTriggers (triggerFetch c ov).coordinator rest

/-- Let a list of pending calls settle, in the given order. -/
def runSettles (c : Coordinator α) : List (Nat × Outcome α) → Coordinator α
  | [] => c
  | s :: rest => runSettles (settle c s.1 s.2).1 rest

/-- A full overlapping-calls scenario: construct the coordinator, issue
all the fetches, then let every call settle in some order. -/
def runScenario (ps : Params) (d0 : Option α) (ovs : List (Option Params))
    (L : List (Nat × Outcome α)) : Coordinator α :=
  runSettles (runTriggers (mkCoordinator ps d0) ovs) L

/-! ### Basic lemmas about settlement -/

/-- Lookup over a concatenation of parameter objects: the left part wins. -/
theorem lookupParams_append (a b : Params) (k : String) :
    lookupParams (a ++ b) k =
      match lookupParams a k with
      | some v => some v
      | Option.none => lookupParams b k := by
  induction a with
  | nil => rfl
  | cons kv rest ih =>
    by_cases h : kv.1 = k
    · simp [lookupParams, h]
    · simp [lookupParams, h, ih]

/-- Settlement never changes the most recently minted token. -/
theorem settle_latestToken (c : Coordinator α) (tok : Nat) (out : Outcome α) :
    (settle c tok out).1.latestToken = c.latestToken := by
  unfold settle
  split
  · split <;> rfl
  · rfl

/-- Settlement never changes liveness of the owning context. -/
theorem settle_alive (c : Coordinator α) (tok : Nat) (out : Outcome α) :
    (settle c tok out).1.alive = c.alive := by
  unfold settle
  split
  · split <;> rfl
  · rfl

/-- A stale settlement (token no longer the most recent) is discarded:
the coordinator is unchanged and no effect is produced. -/
theorem settle_stale (c : Coordinator α) (tok : Nat) (out : Outcome α)
    (h : tok ≠ c.latestToken) :
    settle c tok out = (c, SettleEffects.none α) := by
  have hP : ¬ (c.alive = true ∧ tok = c.latestToken) := fun hc => h hc.2
  unfold settle
  rw [if_neg hP]

/-- A settlement after teardown is discarded: the coordinator is
unchanged and no effect is produced. -/
theorem settle_dead (c : Coordinator α) (tok : Nat) (out : Outcome α)
    (h : c.alive = false) :
    settle c tok out = (c, SettleEffects.none α) := by
  have hP : ¬ (c.alive = true ∧ tok = c.latestToken) := by
    intro hc
    rw [h] at hc
    exact Bool.false_ne_true hc.1
  unfold settle
  rw [if_neg hP]

/-- An accepted successful settlement stores the unwrapped payload. -/
theorem settle_latest_success (c : Coordinator α) (resp : DummyResponse α)
    (halive : c.alive = true) :
    settle c c.latestToken (Outcome.success resp) =
      ({ c with store :=
          { c.store with data := some resp.result, isLoading := false, isError := false } },
       ⟨some resp.result, 0, false⟩) := by
  unfold settle
  rw [if_pos ⟨halive, rfl⟩]

/-- An accepted failing settlement records the error and keeps the data. -/
theorem settle_latest_failure (c : Coordinator α) (halive : c.alive = true) :
    settle c c.latestToken Outcome.failure =
      ({ c with store := { c.store with isError := true, isLoading := false } },
       SettleEffects.none α) := by
  unfold settle
  rw [if_pos ⟨halive, rfl⟩]

/-- A run made only of stale settlements leaves the coordinator as it is. -/
theorem runSettles_noop (c : Coordinator α) (L : List (Nat × Outcome α))
    (h : ∀ p ∈ L, p.1 ≠ c.latestToken) :
    runSettles c L = c := by
  induction L generalizing c with
  | nil => rfl
  | cons p rest ih =>
    have h1 : settle c p.1 p.2 = (c, SettleEffects.none α) :=
      settle_stale c p.1 p.2 (h p (List.mem_cons_self p rest))
    show runSettles (settle c p.1 p.2).1 rest = c
    rw [h1]
    exact ih c (fun q hq => h q (List.mem_cons_of_mem p hq))

/-- Whatever the settlement order, a run in which each pending token
settles at most once and the most recent token settles with outcome
`out` ends exactly in the state obtained by applying that single
settlement: every other settlement is discarded. -/
theorem runSettles_latest (c : Coordinator α) (L : List (Nat × Outcome α))
    (out : Outcome α)
    (hd : (L.map Prod.fst).Nodup)
    (hmem : (c.latestToken, out) ∈ L) :
    runSettles c L = (settle c c.latestToken out).1 := by
  induction L generalizing c with
  | nil => exact absurd hmem (List.not_mem_nil _)
  | cons p rest ih =>
    have hd' : p.1 ∉ rest.map Prod.fst ∧ (rest.map Prod.fst).Nodup :=
      List.nodup_cons.mp (by simpa using hd)
    by_cases hp : p.1 = c.latestToken
    · have hpe : p = (c.latestToken, out) := by
        rcases List.mem_cons.mp hmem with h | h
        · exact h.symm
        · exfalso
          have hin : c.latestToken ∈ rest.map Prod.fst :=
            List.mem_map.mpr ⟨(c.latestToken, out), h, rfl⟩
          rw [hp] at hd'
          exact hd'.1 hin
      show runSettles (settle c p.1 p.2).1 rest = (settle c c.latestToken out).1
      rw [hpe]
      apply runSettles_noop
      intro q hq
      rw [settle_latestToken]
      intro hqe
      have hq1 : q.1 ∈ rest.map Prod.fst := List.mem_map.mpr ⟨q, hq, rfl⟩
      rw [hp] at hd'
      rw [hqe] at hq1
      exact hd'.1 hq1
    · have h1 : settle c p.1 p.2 = (c, SettleEffects.none α) :=
        settle_stale c p.1 p.2 hp
      show runSettles (settle c p.1 p.2).1 rest = (settle c c.latestToken out).1
      rw [h1]
      apply ih
      · exact hd'.2
      · rcases List.mem_cons.mp hmem with h | h
        · exfalso
          apply hp
          rw [← h]
        · exact h

/-! ### Lemmas about issuing fetches -/

/-- Issuing fetches counts the token up by one per fetch. -/
theorem runTriggers_latestToken (c : Coordinator α) (ovs : List (Option Params)) :
    (runTriggers c ovs).latestToken = c.latestToken + ovs.length := by
  induction ovs generalizing c with
  | nil => rfl
  | cons ov rest ih =>
    show (runTriggers (triggerFetch c ov).coordinator rest).latestToken
        = c.latestToken + (rest.length + 1)
    rw [ih]
    have h : (triggerFetch c ov).coordinator.latestToken = c.latestToken + 1 := rfl
    rw [h]
    omega

/-- Issuing fetches does not change liveness. -/
theorem runTriggers_alive (c : Coordinator α) (ovs : List (Option Params)) :
    (runTriggers c ovs).alive = c.alive := by
  induction ovs generalizing c with
  | nil => rfl
  | cons ov rest ih =>
    show (runTriggers (triggerFetch c ov).coordinator rest).alive = c.alive
    rw [ih]
    rfl

/-- Issuing fetches does not change the stored data. -/
theorem runTriggers_data (c : Coordinator α) (ovs : List (Option Params)) :
    (runTriggers c ovs).store.data = c.store.data := by
  induction ovs generalizing c with
  | nil => rfl
  | cons ov rest ih =>
    show (runTriggers (triggerFetch c ov).coordinator rest).store.data = c.store.data
    rw [ih]
    rfl

/-- In a scenario where every issued call settles at most once and the
last-issued call (token `ovs.length`) settles with outcome `out`, the
final coordinator is exactly the one obtained by applying that single
settlement to the post-issue state. -/
theorem runScenario_eq (ps : Params) (d0 : Option α) (ovs : List (Option Params))
    (L : List (Nat × Outcome α)) (out : Outcome α)
    (hd : (L.map Prod.fst).Nodup)
    (hmem : (ovs.length, out) ∈ L) :
    runScenario ps d0 ovs L =
      (settle (runTriggers (mkCoordinator ps d0) ovs) ovs.length out).1 := by
  have hlt : (runTriggers (mkCoordinator ps d0) ovs).latestToken = ovs.length := by
    rw [runTriggers_latestToken]
    exact Nat.zero_add _
  have hmem' : ((runTriggers (mkCoordinator ps d0) ovs).latestToken, out) ∈ L := by
    rw [hlt]
    exact hmem
  have key := runSettles_latest (runTriggers (mkCoordinator ps d0) ovs) L out hd hmem'
  rw [← hlt]
  exact key

/-- The data field an accepted settlement leaves behind: the unwrapped
payload on success, the previous data on failure. -/
def acceptedData (d0 : Option α) : Outcome α → Option α
  | Outcome.success resp => some resp.result
  | Outcome.failure => d0

/-- The error flag an accepted settlement leaves behind. -/
def acceptedError : Outcome α → Bool
  | Outcome.success _ => false
  | Outcome.failure => true

/-- `settle_latest_success` stated for any token equal to the latest. -/
theorem settle_accept_success (c : Coordinator α) (tok : Nat) (resp : DummyResponse α)
    (halive : c.alive = true) (htok : tok = c.latestToken) :
    settle c tok (Outcome.success resp) =
      ({ c with store :=
          { c.store with data := some resp.result, isLoading := false, isError := false } },
       ⟨some resp.result, 0, false⟩) := by
  subst htok
  exact settle_latest_success c resp halive

/-- `settle_latest_failure` stated for any token equal to the latest. -/
theorem settle_accept_failure (c : Coordinator α) (tok : Nat)
    (halive : c.alive = true) (htok : tok = c.latestToken) :
    settle c tok Outcome.failure =
      ({ c with store := { c.store with isError := true, isLoading := false } },
       SettleEffects.none α) := by
  subst htok
  exact settle_latest_failure c halive

/-! ### Concrete instances used by the witnesses -/

/-- The payload shape used throughout the test suite:
`{ matching_results: n }`. -/
structure QueryResult where
  matching_results : Nat
deriving DecidableEq, Repr

/-- A coordinator over `Nat` data with one pending fetch (token 1). -/
def cErr : Coordinator Nat :=
  (triggerFetch (mkCoordinator [] Option.none) Option.none).coordinator

/-- A coordinator over `QueryResult` data with one pending fetch. -/
def cQ : Coordinator QueryResult :=
  (triggerFetch (mkCoordinator [] Option.none) Option.none).coordinator

/-- A fresh coordinator whose stored parameters are
`{ projectId: "foo" }`. -/
def cDoc : Coordinator Nat := mkCoordinator [("projectId", "foo")] Option.none

/-- Two overlapping fetches with no override. -/
def w1ovs : List (Option Params) := [Option.none, Option.none]

/-- The two pending calls settle out of order: the later-issued call
(token 2) settles first. -/
def w1L : List (Nat × Outcome Nat) :=
  [(2, Outcome.success ⟨5⟩), (1, Outcome.success ⟨7⟩)]

/-! ### The claims -/

/-- Claim C1: for every sequence of overlapping triggerFetch calls on one
coordinator, after all calls settle (each at most once, in any order),
the store data and error flag reflect the call issued last — the one
with the highest token — and the run ends in exactly the state produced
by that single settlement, so every earlier settlement is discarded
without mutating the store. -/
theorem lastIssuedWins (ps : Params) (d0 : Option α) (ovs : List (Option Params))
    (L : List (Nat × Outcome α)) (out : Outcome α)
    (hne : ovs ≠ [])
    (hd : (L.map Prod.fst).Nodup)
    (hle : ∀ p ∈ L, p.1 ≤ ovs.length)
    (hmem : (ovs.length, out) ∈ L) :
    (runScenario ps d0 ovs L).store.data = acceptedData d0 out ∧
    (runScenario ps d0 ovs L).store.isError = acceptedError out ∧
    (runScenario ps d0 ovs L).store.isLoading = false ∧
    runScenario ps d0 ovs L =
      (settle (runTriggers (mkCoordinator ps d0) ovs) ovs.length out).1 := by
  have heq := runScenario_eq ps d0 ovs L out hd hmem
  have halive : (runTriggers (mkCoordinator ps d0) ovs).alive = true := by
    rw [runTriggers_alive]
    rfl
  have hdata : (runTriggers (mkCoordinator ps d0) ovs).store.data = d0 := by
    rw [runTriggers_data]
    rfl
  have hlt : (runTriggers (mkCoordinator ps d0) ovs).latestToken = ovs.length := by
    rw [runTriggers_latestToken]
    exact Nat.zero_add _
  refine ⟨?_, ?_, ?_, heq⟩
  · rw [heq]
    cases out with
    | success resp =>
      rw [settle_accept_success _ _ resp halive hlt.symm]
      rfl
    | failure =>
      rw [settle_accept_failure _ _ halive hlt.symm]
      exact hdata
  · rw [heq]
    cases out with
    | success resp =>
      rw [settle_accept_success _ _ resp halive hlt.symm]
      rfl
    | failure =>
      rw [settle_accept_failure _ _ halive hlt.symm]
      rfl
  · rw [heq]
    cases out with
    | success resp => rw [settle_accept_success _ _ resp halive hlt.symm]
    | failure => rw [settle_accept_failure _ _ halive hlt.symm]

/-- Witness for C1: two overlapping fetches, the later call (token 2)
resolves with payload 5 before the earlier call resolves with payload 7;
the store nevertheless holds the last-issued call's payload 5. -/
theorem lastIssuedWins_witness :
    (runScenario ([] : Params) (Option.none : Option Nat) w1ovs w1L).store.data = some 5 :=
  (lastIssuedWins [] Option.none w1ovs w1L (Outcome.success ⟨5⟩)
    (by decide) (by decide) (by decide) (by decide)).1

/-- Claim C2: when the owning context is torn down before a pending call
settles, the later settlement mutates no store field, throws nothing,
and emits no diagnostic. -/
theorem teardownSettleSilent (c : Coordinator α) (tok : Nat) (out : Outcome α) :
    settle (teardown c) tok out = (teardown c, SettleEffects.none α) ∧
    (settle (teardown c) tok out).2.diagnostics = 0 ∧
    (settle (teardown c) tok out).2.rethrown = false := by
  have h : settle (teardown c) tok out = (teardown c, SettleEffects.none α) :=
    settle_dead (teardown c) tok out rfl
  refine ⟨h, ?_, ?_⟩ <;> rw [h] <;> rfl

/-- Claim C3: a rejection settling while its token is still latest and
the context alive sets `isError = true` and `isLoading = false`, keeps
the data, and is never re-thrown to the caller. -/
theorem failureSetsError (c : Coordinator α) (tok : Nat)
    (halive : c.alive = true) (htok : tok = c.latestToken) :
    (settle c tok Outcome.failure).1.store.isError = true ∧
    (settle c tok Outcome.failure).1.store.isLoading = false ∧
    (settle c tok Outcome.failure).1.store.data = c.store.data ∧
    (settle c tok Outcome.failure).2.rethrown = false := by
  subst htok
  rw [settle_latest_failure c halive]
  exact ⟨rfl, rfl, rfl, rfl⟩

/-- Witness for C3: the single pending fetch of `cErr` rejects. -/
theorem failureSetsError_witness :
    (settle cErr 1 Outcome.failure).1.store.isError = true ∧
    (settle cErr 1 Outcome.failure).1.store.isLoading = false ∧
    (settle cErr 1 Outcome.failure).1.store.data = cErr.store.data ∧
    (settle cErr 1 Outcome.failure).2.rethrown = false :=
  failureSetsError cErr 1 rfl rfl

/-- Claim C4: every triggerFetch call synchronously sets
`isLoading = true` and `isError = false` and mints the next token, so
the caller observes the loading state before the external call settles. -/
theorem triggerSetsLoading (c : Coordinator α) (override : Option Params) :
    (triggerFetch c override).coordinator.store.isLoading = true ∧
    (triggerFetch c override).coordinator.store.isError = false ∧
    (triggerFetch c override).coordinator.latestToken = c.latestToken + 1 :=
  ⟨rfl, rfl, rfl⟩

/-- Claim C5: `onSettled` is invoked with the accepted result exactly
when the call succeeds while its token is still the latest and the
context is alive; it is invoked neither on failure nor on a stale
settlement. -/
theorem onSettledIff (c : Coordinator α) (tok : Nat) (out : Outcome α) (r : α) :
    (settle c tok out).2.onSettledArg = some r ↔
      c.alive = true ∧ tok = c.latestToken ∧ out = Outcome.success ⟨r⟩ := by
  unfold settle
  by_cases hP : c.alive = true ∧ tok = c.latestToken
  · rw [if_pos hP]
    cases out with
    | success resp =>
      constructor
      · intro h
        refine ⟨hP.1, hP.2, ?_⟩
        have hr : resp.result = r := Option.some.inj h
        rw [← hr]
      · intro h
        have hresp : resp = ⟨r⟩ := by
          injection h.2.2
        rw [hresp]
    | failure =>
      constructor
      · intro h
        exact Option.noConfusion h
      · intro h
        exact Outcome.noConfusion h.2.2
  · rw [if_neg hP]
    constructor
    · intro h
      exact Option.noConfusion h
    · intro h
      exact absurd ⟨h.1, h.2.1⟩ hP

/-- Claim C6: `setParameters` shallow-merges the update into the current
parameters and changes nothing else — data, loading flag, error flag,
token and liveness are untouched, so no fetch is issued. -/
theorem setParametersFrame (c : Coordinator α) (upd : Params) :
    (setParameters c upd).store.data = c.store.data ∧
    (setParameters c upd).store.isLoading = c.store.isLoading ∧
    (setParameters c upd).store.isError = c.store.isError ∧
    (setParameters c upd).latestToken = c.latestToken ∧
    (setParameters c upd).alive = c.alive ∧
    ∀ k : String, lookupParams (setParameters c upd).store.parameters k =
      match lookupParams upd k with
      | some v => some v
      | Option.none => lookupParams c.store.parameters k :=
  ⟨rfl, rfl, rfl, rfl, rfl, fun k => lookupParams_append upd c.store.parameters k⟩

/-- Claim C7: `setResponse` synchronously stores the given response and
clears the error flag, leaving everything else (including the token, so
no external call is issued) unchanged. -/
theorem setResponseSpec (c : Coordinator α) (r : α) :
    (setResponse c r).store.data = some r ∧
    (setResponse c r).store.isError = false ∧
    (setResponse c r).store.isLoading = c.store.isLoading ∧
    (setResponse c r).store.parameters = c.store.parameters ∧
    (setResponse c r).latestToken = c.latestToken ∧
    (setResponse c r).alive = c.alive :=
  ⟨rfl, rfl, rfl, rfl, rfl, rfl⟩

/-- Claim C8: the document-fetch action invokes the external call with
the filter shallow-merged over the stored parameters: when the stored
parameters carry no `filter` field, every stored field is passed through
unchanged and the `filter` field is added. -/
theorem fetchDocumentsMergesFilter (c : Coordinator α) (f : String)
    (hf : lookupParams c.store.parameters "filter" = Option.none) :
    ∀ k : String, lookupParams (fetchDocuments c f).callParams k =
      if k = "filter" then some f else lookupParams c.store.parameters k := by
  intro k
  show lookupParams ([("filter", f)] ++ c.store.parameters) k = _
  rw [lookupParams_append]
  by_cases hk : k = "filter"
  · subst hk
    simp [lookupParams]
  · have hfk : ("filter" : String) ≠ k := fun h => hk h.symm
    have h1 : lookupParams [("filter", f)] k = Option.none := by
      simp [lookupParams, hfk]
    rw [h1, if_neg hk]

/-- Witness for C8: fetching documents with filter `"filter_string"` on
stored parameters `{ projectId: "foo" }` passes `projectId` through. -/
theorem fetchDocumentsMergesFilter_witness :
    lookupParams (fetchDocuments cDoc "filter_string").callParams "projectId" =
      (if "projectId" = "filter" then some "filter_string"
       else lookupParams cDoc.store.parameters "projectId") :=
  fetchDocumentsMergesFilter cDoc "filter_string" (by decide) "projectId"

/-- Claim C9: at construction the store starts not loading and not in
error, with the caller-supplied parameters and initial results (the
default being no data), before any action runs. -/
theorem initState (ps : Params) (d0 : Option α) :
    (mkCoordinator ps d0).store.isLoading = false ∧
    (mkCoordinator ps d0).store.isError = false ∧
    (mkCoordinator ps d0).store.parameters = ps ∧
    (mkCoordinator ps d0).store.data = d0 ∧
    (mkCoordinator ps d0).latestToken = 0 ∧
    (mkCoordinator ps d0).alive = true :=
  ⟨rfl, rfl, rfl, rfl, rfl, rfl⟩

/-- Claim C10: an accepted successful settlement stores the payload under
the response envelope's `result` field — the envelope is unwrapped — and
hands the same unwrapped payload to the callback. -/
theorem settleUnwrapsResult (c : Coordinator α) (tok : Nat) (resp : DummyResponse α)
    (halive : c.alive = true) (htok : tok = c.latestToken) :
    (settle c tok (Outcome.success resp)).1.store.data = some resp.result ∧
    (settle c tok (Outcome.success resp)).2.onSettledArg = some resp.result := by
  subst htok
  rw [settle_latest_success c resp halive]
  exact ⟨rfl, rfl⟩

/-- Witness for C10: a client resolving with
`{ result: { matching_results: 1 } }` yields data
`{ matching_results: 1 }`, not the whole envelope. -/
theorem settleUnwrapsResult_witness :
    (settle cQ 1 (Outcome.success ⟨⟨1⟩⟩)).1.store.data = some (⟨1⟩ : QueryResult) ∧
    (settle cQ 1 (Outcome.success ⟨⟨1⟩⟩)).2.onSettledArg = some (⟨1⟩ : QueryResult) :=
  settleUnwrapsResult cQ 1 ⟨⟨1⟩⟩ rfl rfl

end UseDataApi
